import Mathlib

/-!
Verification of the generation lifecycle controller and adaptive
streaming-render queue of the Chronicle AI Editor
(src/components/Editor.tsx).

The render queue (Editor.tsx lines 107-146) is a string buffer
`textQueueRef`, a boolean `isProcessingQueue`, and a frame-paced
`processQueue` step that withdraws an adaptively sized chunk from the
front of the buffer and inserts it into the ProseMirror document.
Strings are embedded as `List Char` (JavaScript `slice` on the buffer
becomes `List.take` / `List.drop`). The document sink is embedded as
the log of texts passed to `insertText`, in call order.

The XState machine itself lives in `src/machines/editorMachine.ts`,
which is not included in the sources; only its caller `Editor.tsx` is.
The machine is therefore modelled from the spec transition table
(spec §4.2), while everything layered on top of it (the `runGeneration`
effect, its `active` flag, the cancel button, the catch handler) is
embedded from `Editor.tsx`.
-/

namespace Chronicle

/-- State of the render queue (Editor.tsx lines 58-59) together with the
log of insertions issued to the document sink (line 128). -/
structure QueueState where
  /-- `textQueueRef.current` : the buffered, not-yet-rendered characters. -/
  textQueue : List Char
  /-- `isProcessingQueue.current` : whether a drain loop is active. -/
  isProcessing : Bool
  /-- Log of the texts passed to `insertText`, in call order. -/
  inserted : List (List Char)
  deriving DecidableEq, Repr

/-- Adaptive chunk size policy of `processQueue` (Editor.tsx lines 115-123):
the cascade of `if/else if` branches on `queueLength`. -/
def chunkSizeFor (queueLength : Nat) : Nat :=
  if queueLength > 200 then 50
  else if queueLength > 100 then 25
  else if queueLength > 50 then 10
  else if queueLength > 10 then 4
  else 2

/-- One drain step, `processQueue` (Editor.tsx lines 110-136): if the
buffer is nonempty, compute the chunk size from the current length,
remove that many characters from the front (`slice`), and dispatch one
`insertText` transaction with them; otherwise clear the
`isProcessingQueue` flag. -/
def processQueue (s : QueueState) : QueueState :=
  if s.textQueue.length > 0 then
    let chunkSize := chunkSizeFor s.textQueue.length
    { s with
      textQueue := s.textQueue.drop chunkSize
      inserted := s.inserted ++ [s.textQueue.take chunkSize] }
  else
    { s with isProcessing := false }

/-- `triggerProcessing` (Editor.tsx lines 138-143): start a drain loop
only when none is active; a call while one is active is a no-op. -/
def triggerProcessing (s : QueueState) : QueueState :=
  if s.isProcessing then s
  else processQueue { s with isProcessing := true }

/-- Enqueueing a fragment, as done by the `onFragment` callback of
`runGeneration` (Editor.tsx lines 166-169): append to the buffer, then
`triggerTyping` (= `triggerProcessing`). -/
def enqueue (frag : List Char) (s : QueueState) : QueueState :=
  triggerProcessing { s with textQueue := s.textQueue ++ frag }

/-- Iterated drain steps: `n` successive frame callbacks running
`processQueue`. -/
def drainN : Nat → QueueState → QueueState
  | 0, s => s
  | n + 1, s => drainN n (processQueue s)

/-- An interaction with the render queue: either a fragment is enqueued
or a frame fires a drain step. -/
inductive QueueOp where
  | enq (frag : List Char)
  | drain
  deriving DecidableEq, Repr

/-- Apply one interaction to the queue. -/
def applyOp (s : QueueState) : QueueOp → QueueState
  | .enq frag => enqueue frag s
  | .drain => processQueue s

/-- Run a finite sequence of interactions. -/
def runOps (s : QueueState) (ops : List QueueOp) : QueueState :=
  ops.foldl applyOp s

/-- Concatenation of all fragments enqueued by a sequence of
interactions, in order. -/
def enqueuedText : List QueueOp → List Char
  | [] => []
  | .enq frag :: ops => frag ++ enqueuedText ops
  | .drain :: ops => enqueuedText ops

/-- The initial queue: empty buffer, no loop active, nothing inserted
(Editor.tsx lines 58-59). -/
def initQueue : QueueState := ⟨[], false, []⟩

/-- Total character flow through the queue: everything already handed to
the sink followed by everything still buffered. -/
def flow (s : QueueState) : List Char :=
  s.inserted.flatten ++ s.textQueue

/-- Session status (spec §3, GenerationSession.status). -/
inductive Status where
  | idle
  | generating
  | success
  | error
  | cancelled
  deriving DecidableEq, Repr

/-- State of the generation controller machine. -/
structure MachineState where
  status : Status
  /-- Base text stored with the START request. -/
  currentText : List Char
  /-- Optional instruction stored with the START request. -/
  instruction : Option String
  errorMessage : Option String
  deriving DecidableEq, Repr

/-- Events sent to the machine from Editor.tsx: CONTINUE_WRITING
(line 197), GENERATION_COMPLETE (line 171), ERROR (line 173), CANCEL
(lines 207 and 346). -/
inductive MachineEvent where
  | continueWriting (currentText : List Char) (instruction : Option String)
  | generationComplete
  | error (message : String)
  | cancel
  deriving DecidableEq, Repr

/-- Modelled from the spec: `src/machines/editorMachine.ts` is not among
the sources, so the machine transition function follows the spec §4.2
transition table literally — START is accepted in idle and in the three
terminal states, COMPLETE/FAIL/CANCEL only in generating, and an event
arriving in a state that does not define it is silently ignored. -/
def machineSend (m : MachineState) (e : MachineEvent) : MachineState :=
  match m.status, e with
  | .idle, .continueWriting t i =>
      { status := .generating, currentText := t, instruction := i,
        errorMessage := none }
  | .success, .continueWriting t i =>
      { status := .generating, currentText := t, instruction := i,
        errorMessage := none }
  | .error, .continueWriting t i =>
      { status := .generating, currentText := t, instruction := i,
        errorMessage := none }
  | .cancelled, .continueWriting t i =>
      { status := .generating, currentText := t, instruction := i,
        errorMessage := none }
  | .generating, .generationComplete => { m with status := .success }
  | .generating, .error msg =>
      { m with status := .error, errorMessage := some msg }
  | .generating, .cancel => { m with status := .cancelled }
  | _, _ => m

/-- Combined state of the controller layer in Editor.tsx: the machine,
the `active` flag of the current `runGeneration` effect closure
(line 149), and the render queue. -/
structure SystemState where
  machine : MachineState
  /-- The `active` closure flag: true while the effect that started the
  current producer consumption has not been cleaned up. -/
  active : Bool
  queue : QueueState
  deriving DecidableEq, Repr

/-- Delivery of a producer fragment to the `onFragment` callback
(Editor.tsx lines 164-170): the callback first checks the `active` flag
and returns without enqueueing when it is false; otherwise it appends
the chunk to the buffer and triggers the drain loop. -/
def deliverFragment (s : SystemState) (chunk : List Char) : SystemState :=
  if s.active then { s with queue := enqueue chunk s.queue } else s

/-- The cancel button click while generating (Editor.tsx line 346):
sends CANCEL to the machine and nothing else. When the machine status
changes, the `runGeneration` effect re-runs and its cleanup (line 178)
sets the old closure flag `active := false`. The render queue is not
touched: neither `textQueueRef` nor `isProcessingQueue` is reset. -/
def clickCancel (s : SystemState) : SystemState :=
  let m := machineSend s.machine .cancel
  { s with
    machine := m
    active := if m.status = s.machine.status then s.active else false }

/-- The message carried by the ERROR event (Editor.tsx line 173):
`err.message || 'Failed to generate text'` — a missing or empty message
falls back to the generic default. -/
def errorEventMessage (errMessage : Option String) : String :=
  match errMessage with
  | some msg => if msg = "" then "Failed to generate text" else msg
  | none => "Failed to generate text"

/-- Producer rejection reaching the catch handler (Editor.tsx
lines 172-174): if the closure is still active, send ERROR with the
producer message (or the default); the queue and the document are not
touched. -/
def producerFail (s : SystemState) (errMessage : Option String) : SystemState :=
  if s.active then
    { s with machine := machineSend s.machine (.error (errorEventMessage errMessage)) }
  else s

/-- Producer completion (Editor.tsx line 171): if the closure is still
active, send GENERATION_COMPLETE; the queue is not touched. -/
def producerComplete (s : SystemState) : SystemState :=
  if s.active then
    { s with machine := machineSend s.machine .generationComplete }
  else s

/-- UI-level state relevant to `handleStartGeneration` (Editor.tsx
lines 181-203): the expansion flag of the result card, the document text
content, and the pending buffer. -/
structure EditorUI where
  isExpanded : Bool
  /-- `viewRef.current.state.doc.textContent`. -/
  doc : List Char
  /-- `textQueueRef.current`. -/
  textQueue : List Char
  deriving DecidableEq, Repr

/-- `clearEditor` (Editor.tsx lines 181-187): delete the whole document
and clear the pending buffer. -/
def clearEditor (e : EditorUI) : EditorUI :=
  { e with doc := [], textQueue := [] }

/-- `handleStartGeneration` (Editor.tsx lines 189-203): when the card is
collapsed, clear the editor and expand it; the base text sent with
CONTINUE_WRITING is `isExpanded ? doc.textContent : ""`, read from the
render-time value of `isExpanded`, so a start from the collapsed state
always sends the empty string. Returns the new UI state together with
the `currentText` field of the dispatched event. -/
def handleStartGeneration (e : EditorUI) : EditorUI × List Char :=
  let e1 := if e.isExpanded then e else { clearEditor e with isExpanded := true }
  let currentEditorText := if e.isExpanded then e.doc else []
  (e1, currentEditorText)

/-! Supporting lemmas. -/

lemma chunkSizeFor_pos (L : Nat) : 0 < chunkSizeFor L := by
  unfold chunkSizeFor
  split_ifs <;> norm_num

lemma flow_processQueue (s : QueueState) : flow (processQueue s) = flow s := by
  unfold processQueue flow
  split_ifs with h
  · simp [List.flatten_append, List.append_assoc, List.take_append_drop]
  · rfl

lemma flow_triggerProcessing (s : QueueState) :
    flow (triggerProcessing s) = flow s := by
  unfold triggerProcessing
  split_ifs with h
  · rfl
  · rw [flow_processQueue]
    rfl

lemma flow_enqueue (frag : List Char) (s : QueueState) :
    flow (enqueue frag s) = flow s ++ frag := by
  unfold enqueue
  rw [flow_triggerProcessing]
  simp [flow, List.append_assoc]

lemma flow_applyOp (s : QueueState) (op : QueueOp) :
    flow (applyOp s op) = flow s ++ enqueuedText [op] := by
  cases op with
  | enq frag => simp [applyOp, flow_enqueue, enqueuedText]
  | drain => simp [applyOp, flow_processQueue, enqueuedText]

lemma flow_runOps (ops : List QueueOp) (s : QueueState) :
    flow (runOps s ops) = flow s ++ enqueuedText ops := by
  induction ops generalizing s with
  | nil => simp [runOps, enqueuedText]
  | cons op ops ih =>
    cases op with
    | enq frag =>
      show flow (runOps (applyOp s (.enq frag)) ops) = _
      rw [ih, flow_applyOp]
      simp [enqueuedText, List.append_assoc]
    | drain =>
      show flow (runOps (applyOp s .drain) ops) = _
      rw [ih, flow_applyOp]
      simp [enqueuedText]

lemma length_processQueue_lt (s : QueueState) (h : s.textQueue ≠ []) :
    (processQueue s).textQueue.length < s.textQueue.length := by
  unfold processQueue
  have hpos : s.textQueue.length > 0 := List.length_pos.mpr h
  simp only [hpos, if_true]
  have hc := chunkSizeFor_pos s.textQueue.length
  simp only [List.length_drop]
  omega

lemma drainN_empties : ∀ (n : Nat) (s : QueueState),
    s.textQueue.length ≤ n → (drainN n s).textQueue = [] := by
  intro n
  induction n with
  | zero =>
    intro s hs
    have : s.textQueue = [] := List.length_eq_zero.mp (Nat.le_zero.mp hs)
    simpa [drainN]
  | succ n ih =>
    intro s hs
    show (drainN n (processQueue s)).textQueue = []
    by_cases hq : s.textQueue = []
    · apply ih
      have : (processQueue s).textQueue = [] := by
        unfold processQueue
        simp [hq]
      simp [this]
    · apply ih
      have := length_processQueue_lt s hq
      omega

lemma drainN_succ_comm (n : Nat) (s : QueueState) :
    drainN (n + 1) s = processQueue (drainN n s) := by
  induction n generalizing s with
  | zero => rfl
  | succ n ih =>
    show drainN (n + 1) (processQueue s) = _
    rw [ih]
    rfl

lemma flow_drainN (n : Nat) (s : QueueState) :
    flow (drainN n s) = flow s := by
  induction n generalizing s with
  | zero => rfl
  | succ n ih =>
    show flow (drainN n (processQueue s)) = flow s
    rw [ih, flow_processQueue]

lemma drainN_final (s : QueueState) :
    (drainN (s.textQueue.length + 1) s).textQueue = [] ∧
    (drainN (s.textQueue.length + 1) s).isProcessing = false := by
  have hempty := drainN_empties s.textQueue.length s (Nat.le_refl _)
  rw [drainN_succ_comm]
  constructor
  · unfold processQueue
    simp [hempty]
  · unfold processQueue
    simp [hempty]

/-! Claim theorems. -/

/-- C1: for every finite sequence of interactions with the render queue
— fragments enqueued in order, arbitrarily interleaved with drain steps,
with no cancel or reset — draining the remainder to completion yields a
document-sink insertion log whose concatenation equals the concatenation
of the enqueued fragments, in enqueue order: no loss, no reordering, no
duplication. -/
theorem queue_faithful_delivery (ops : List QueueOp) :
    ((drainN ((runOps initQueue ops).textQueue.length + 1)
        (runOps initQueue ops)).inserted).flatten = enqueuedText ops ∧
    (drainN ((runOps initQueue ops).textQueue.length + 1)
        (runOps initQueue ops)).textQueue = [] := by
  have hfinal := drainN_final (runOps initQueue ops)
  have hflow : flow (drainN ((runOps initQueue ops).textQueue.length + 1)
      (runOps initQueue ops)) = enqueuedText ops := by
    rw [flow_drainN, flow_runOps]
    rfl
  refine ⟨?_, hfinal.1⟩
  unfold flow at hflow
  rw [hfinal.1] at hflow
  simpa using hflow

/-- C2 counterexample: with status generating, three characters
buffered, a drain loop active and nothing inserted yet, clicking CANCEL
leaves the pending buffer at length 3, not 0, and the already scheduled
drain step still issues an insertion ("ab") to the document sink —
the render queue is not reset by CANCEL. -/
theorem cancel_no_reset_cex :
    (clickCancel ⟨⟨.generating, [], none, none⟩, true,
        ⟨['a', 'b', 'c'], true, []⟩⟩).queue.textQueue.length = 3 ∧
    (processQueue (clickCancel ⟨⟨.generating, [], none, none⟩, true,
        ⟨['a', 'b', 'c'], true, []⟩⟩).queue).inserted = [['a', 'b']] := by
  decide

/-- C2 amended: CANCEL while generating moves the machine to cancelled
and deactivates the producer closure, so fragments from an in-flight
delivery are discarded and never enqueued; but it does not reset the
render queue: the buffered text, the drain flag and the insertion log
are left exactly as they were, and already-buffered text keeps
draining. -/
theorem cancel_stops_enqueue_not_buffer (s : SystemState)
    (h : s.machine.status = .generating) :
    (clickCancel s).machine.status = .cancelled ∧
    (clickCancel s).active = false ∧
    (clickCancel s).queue = s.queue ∧
    ∀ chunk, deliverFragment (clickCancel s) chunk = clickCancel s := by
  obtain ⟨⟨st, ct, ins, em⟩, a, q⟩ := s
  simp only at h
  subst h
  refine ⟨rfl, rfl, rfl, ?_⟩
  intro chunk
  rfl

/-- C2 amended witness at a concrete generating state with one buffered
character. -/
theorem cancel_stops_enqueue_not_buffer_witness :
    (clickCancel ⟨⟨.generating, [], none, none⟩, true,
        ⟨['x'], true, []⟩⟩).machine.status = .cancelled ∧
    (clickCancel ⟨⟨.generating, [], none, none⟩, true,
        ⟨['x'], true, []⟩⟩).active = false ∧
    (clickCancel ⟨⟨.generating, [], none, none⟩, true,
        ⟨['x'], true, []⟩⟩).queue = ⟨['x'], true, []⟩ ∧
    ∀ chunk, deliverFragment (clickCancel ⟨⟨.generating, [], none, none⟩,
        true, ⟨['x'], true, []⟩⟩) chunk =
      clickCancel ⟨⟨.generating, [], none, none⟩, true, ⟨['x'], true, []⟩⟩ :=
  cancel_stops_enqueue_not_buffer _ rfl

/-- C3: every drain step recomputes the chunk size from the current
buffer length by the staircase policy, removes exactly
min(chunkSize, L) characters from the front, and issues exactly one
insertion with that substring; from length 250 the first step removes 50
leaving 200 and the second removes 25 leaving 175. -/
theorem drain_chunk_policy :
    (∀ L, 200 < L → chunkSizeFor L = 50) ∧
    (∀ L, 100 < L → L ≤ 200 → chunkSizeFor L = 25) ∧
    (∀ L, 50 < L → L ≤ 100 → chunkSizeFor L = 10) ∧
    (∀ L, 10 < L → L ≤ 50 → chunkSizeFor L = 4) ∧
    (∀ L, 1 ≤ L → L ≤ 10 → chunkSizeFor L = 2) ∧
    (∀ s : QueueState, s.textQueue ≠ [] →
      (processQueue s).textQueue =
        s.textQueue.drop (chunkSizeFor s.textQueue.length) ∧
      (processQueue s).inserted =
        s.inserted ++ [s.textQueue.take (chunkSizeFor s.textQueue.length)] ∧
      (s.textQueue.take (chunkSizeFor s.textQueue.length)).length =
        min (chunkSizeFor s.textQueue.length) s.textQueue.length) ∧
    (∀ s : QueueState, s.textQueue.length = 250 →
      (processQueue s).textQueue.length = 200 ∧
      (processQueue (processQueue s)).textQueue.length = 175) := by
  have hstep : ∀ s : QueueState, s.textQueue ≠ [] →
      (processQueue s).textQueue =
        s.textQueue.drop (chunkSizeFor s.textQueue.length) ∧
      (processQueue s).inserted =
        s.inserted ++ [s.textQueue.take (chunkSizeFor s.textQueue.length)] ∧
      (s.textQueue.take (chunkSizeFor s.textQueue.length)).length =
        min (chunkSizeFor s.textQueue.length) s.textQueue.length := by
    intro s hs
    have hpos : s.textQueue.length > 0 := List.length_pos.mpr hs
    unfold processQueue
    simp [hpos, List.length_take]
  refine ⟨?_, ?_, ?_, ?_, ?_, hstep, ?_⟩
  · intro L hL
    unfold chunkSizeFor
    split_ifs <;> omega
  · intro L h1 h2
    unfold chunkSizeFor
    split_ifs <;> omega
  · intro L h1 h2
    unfold chunkSizeFor
    split_ifs <;> omega
  · intro L h1 h2
    unfold chunkSizeFor
    split_ifs <;> omega
  · intro L h1 h2
    unfold chunkSizeFor
    split_ifs <;> omega
  · intro s h250
    have hne : s.textQueue ≠ [] := by
      intro hnil
      rw [hnil] at h250
      simp at h250
    have h1 := (hstep s hne).1
    have hc : chunkSizeFor s.textQueue.length = 50 := by
      rw [h250]
      rfl
    have hlen1 : (processQueue s).textQueue.length = 200 := by
      rw [h1, List.length_drop, hc, h250]
    refine ⟨hlen1, ?_⟩
    have hne2 : (processQueue s).textQueue ≠ [] := by
      intro hnil
      rw [hnil] at hlen1
      simp at hlen1
    have h2 := (hstep (processQueue s) hne2).1
    have hc2 : chunkSizeFor (processQueue s).textQueue.length = 25 := by
      rw [hlen1]
      rfl
    rw [h2, List.length_drop, hc2, hlen1]

set_option maxRecDepth 4000 in
/-- C3 witness: the staircase evaluated on one representative length per
row, and the 250-length scenario on a concrete buffer. -/
theorem drain_chunk_policy_witness :
    chunkSizeFor 250 = 50 ∧ chunkSizeFor 150 = 25 ∧ chunkSizeFor 60 = 10 ∧
    chunkSizeFor 20 = 4 ∧ chunkSizeFor 5 = 2 ∧
    (processQueue ⟨List.replicate 250 'x', true, []⟩).textQueue.length = 200 ∧
    (processQueue (processQueue ⟨List.replicate 250 'x', true,
        []⟩)).textQueue.length = 175 :=
  ⟨drain_chunk_policy.1 250 (by decide),
   drain_chunk_policy.2.1 150 (by decide) (by decide),
   drain_chunk_policy.2.2.1 60 (by decide) (by decide),
   drain_chunk_policy.2.2.2.1 20 (by decide) (by decide),
   drain_chunk_policy.2.2.2.2.1 5 (by decide) (by decide),
   (drain_chunk_policy.2.2.2.2.2.2 ⟨List.replicate 250 'x', true, []⟩
      (by decide)).1,
   (drain_chunk_policy.2.2.2.2.2.2 ⟨List.replicate 250 'x', true, []⟩
      (by decide)).2⟩

/-- C4: a fragment delivered once the effect closure is no longer active
(which is the state the Controller checks before forwarding) is silently
discarded — the whole system state is unchanged, so nothing is enqueued;
and CANCEL issued while generating deactivates the closure, so every
later delivery leaves the pending buffer unchanged. -/
theorem stale_fragment_discarded :
    (∀ (s : SystemState) (chunk : List Char), s.active = false →
      deliverFragment s chunk = s) ∧
    (∀ s : SystemState, s.machine.status = .generating →
      (clickCancel s).active = false ∧
      ∀ chunk, (deliverFragment (clickCancel s) chunk).queue.textQueue =
        s.queue.textQueue) := by
  constructor
  · intro s chunk hs
    unfold deliverFragment
    simp [hs]
  · intro s h
    obtain ⟨⟨st, ct, ins, em⟩, a, q⟩ := s
    simp only at h
    subst h
    exact ⟨rfl, fun chunk => rfl⟩

/-- C4 witness: a delivery to an inactive closure at a concrete state is
the identity. -/
theorem stale_fragment_discarded_witness :
    deliverFragment ⟨⟨.idle, [], none, none⟩, false, initQueue⟩ ['z'] =
      ⟨⟨.idle, [], none, none⟩, false, initQueue⟩ :=
  stale_fragment_discarded.1 _ _ rfl

/-- C5: a drain step never hands the sink more characters than were
buffered, and once fragments stop arriving the buffer reaches exactly 0
after finitely many steps (one more than the buffer length suffices),
at which point the drain-active flag is false. -/
theorem drain_terminates (s : QueueState) :
    ((processQueue s).inserted.flatten).length ≤
      (s.inserted.flatten).length + s.textQueue.length ∧
    (drainN (s.textQueue.length + 1) s).textQueue = [] ∧
    (drainN (s.textQueue.length + 1) s).isProcessing = false := by
  refine ⟨?_, (drainN_final s).1, (drainN_final s).2⟩
  have h := congrArg List.length (flow_processQueue s)
  unfold flow at h
  simp only [List.length_append] at h
  omega

/-- C6: at most one drain loop per queue instance: triggering the loop
while one is active is a no-op on the whole queue state; enqueueing
while a loop is active only appends (no drain step runs); and only when
no loop is active does enqueueing start one (setting the flag and
running the first step). -/
theorem single_drain_loop :
    (∀ s : QueueState, s.isProcessing = true → triggerProcessing s = s) ∧
    (∀ (s : QueueState) (f : List Char), s.isProcessing = true →
      enqueue f s = { s with textQueue := s.textQueue ++ f }) ∧
    (∀ (s : QueueState) (f : List Char), s.isProcessing = false →
      enqueue f s =
        processQueue { s with textQueue := s.textQueue ++ f,
                              isProcessing := true }) := by
  refine ⟨?_, ?_, ?_⟩
  · intro s hs
    unfold triggerProcessing
    simp [hs]
  · intro s f hs
    unfold enqueue triggerProcessing
    simp [hs]
  · intro s f hs
    unfold enqueue triggerProcessing
    simp [hs]

/-- C6 witness: triggering while active is the identity on a concrete
nonempty queue. -/
theorem single_drain_loop_witness :
    triggerProcessing ⟨['a'], true, []⟩ = ⟨['a'], true, []⟩ :=
  single_drain_loop.1 _ rfl

/-- C7: START (CONTINUE_WRITING) issued while the machine status is
generating is rejected as a no-op: the machine state, and in particular
the status, is completely unchanged, so the `runGeneration` effect —
keyed on the machine state value — does not re-run and no second
producer consumption loop begins. -/
theorem start_while_generating_noop (m : MachineState) (t : List Char)
    (i : Option String) (h : m.status = .generating) :
    machineSend m (.continueWriting t i) = m := by
  obtain ⟨st, ct, ins, em⟩ := m
  simp only at h
  subst h
  rfl

/-- C7 witness: a concrete generating machine ignores a concrete START. -/
theorem start_while_generating_noop_witness :
    machineSend ⟨.generating, [], none, none⟩
        (.continueWriting ['h', 'i'] none) =
      ⟨.generating, [], none, none⟩ :=
  start_while_generating_noop ⟨.generating, [], none, none⟩ ['h', 'i'] none rfl

/-- C8: a producer rejection while the closure is active sends ERROR
with the producer message, moving the machine to error with that message
stored: a rejection carrying "rate limited" yields errorMessage
"rate limited", while a missing (or empty) message falls back to the
generic "Failed to generate text". -/
theorem producer_error_sets_message :
    (∀ (s : SystemState) (msg : Option String), s.active = true →
      s.machine.status = .generating →
      (producerFail s msg).machine.status = .error ∧
      (producerFail s msg).machine.errorMessage =
        some (errorEventMessage msg)) ∧
    errorEventMessage (some "rate limited") = "rate limited" ∧
    errorEventMessage none = "Failed to generate text" ∧
    errorEventMessage (some "") = "Failed to generate text" := by
  refine ⟨?_, by decide, rfl, by decide⟩
  intro s msg ha h
  obtain ⟨⟨st, ct, ins, em⟩, a, q⟩ := s
  simp only at ha h
  subst ha
  subst h
  exact ⟨rfl, rfl⟩

/-- C8 witness: a concrete generating system receiving a rejection with
message "rate limited" ends in status error carrying that message. -/
theorem producer_error_sets_message_witness :
    (producerFail ⟨⟨.generating, [], none, none⟩, true, initQueue⟩
        (some "rate limited")).machine.status = .error ∧
    (producerFail ⟨⟨.generating, [], none, none⟩, true, initQueue⟩
        (some "rate limited")).machine.errorMessage =
      some (errorEventMessage (some "rate limited")) :=
  producer_error_sets_message.1 _ (some "rate limited") rfl rfl

/-- C9: a producer failure while generating moves the machine to error
and leaves the render queue — the pending buffer, the drain flag and the
log of insertions already issued to the document sink — exactly as it
was: no inserted text is rolled back, and the error transition performs
no document mutation. -/
theorem failure_keeps_inserted_text (s : SystemState)
    (msg : Option String) (h : s.machine.status = .generating)
    (ha : s.active = true) :
    (producerFail s msg).machine.status = .error ∧
    (producerFail s msg).queue = s.queue ∧
    ∀ t ∈ s.queue.inserted, t ∈ (producerFail s msg).queue.inserted := by
  obtain ⟨⟨st, ct, ins, em⟩, a, q⟩ := s
  simp only at h ha
  subst h
  subst ha
  exact ⟨rfl, rfl, fun t ht => ht⟩

/-- C9 witness: failing after the text "hi" was already inserted keeps
that insertion in the sink log. -/
theorem failure_keeps_inserted_text_witness :
    (producerFail ⟨⟨.generating, [], none, none⟩, true,
        ⟨[], false, [['h', 'i']]⟩⟩ none).machine.status = .error ∧
    (producerFail ⟨⟨.generating, [], none, none⟩, true,
        ⟨[], false, [['h', 'i']]⟩⟩ none).queue = ⟨[], false, [['h', 'i']]⟩ ∧
    ∀ t ∈ (⟨[], false, [['h', 'i']]⟩ : QueueState).inserted,
      t ∈ (producerFail ⟨⟨.generating, [], none, none⟩, true,
        ⟨[], false, [['h', 'i']]⟩⟩ none).queue.inserted :=
  failure_keeps_inserted_text _ none rfl rfl

/-- C10: starting generation while the result card is collapsed first
clears the whole document and the pending buffer, expands the card, and
sends the empty string as the base text — regardless of the prior
document content; starting while the card is already expanded changes
nothing and sends the current document text as base text. -/
theorem start_collapsed_uses_empty_base (e : EditorUI) :
    (e.isExpanded = false →
      handleStartGeneration e = (⟨true, [], []⟩, [])) ∧
    (e.isExpanded = true → handleStartGeneration e = (e, e.doc)) := by
  constructor
  · intro h
    unfold handleStartGeneration clearEditor
    simp [h]
  · intro h
    unfold handleStartGeneration
    simp [h]

/-- C10 witness: starting from a collapsed card with prior document
content "old" and a buffered "q" clears both and sends the empty base
text. -/
theorem start_collapsed_uses_empty_base_witness :
    handleStartGeneration ⟨false, ['o', 'l', 'd'], ['q']⟩ =
      (⟨true, [], []⟩, []) :=
  (start_collapsed_uses_empty_base _).1 rfl

end Chronicle
